import Mathlib

/-!
Verification of the appbiotic `api-build` extern-path resolver.

Shallow embedding of the Extern Path Resolver & Package Spec Builder from
`crates/prost-serde-build/src/lib.rs`, the spec data types from
`crates/protogen-spec/src/lib.rs`, and the CLI package builder from
`crates/rust-build/src/main.rs`, together with theorems settling the
frozen claims about the natural-language specification.
-/

namespace ApiBuild

/-- `ExternPath` from `crates/protogen-spec/src/lib.rs`: a binding pair.
The Rust struct derives a lexicographic `Ord` over `(proto_path, rust_path)`.
Note the second field is called `rust_path` in the source. -/
structure ExternPath where
  proto_path : String
  rust_path : String
deriving DecidableEq, Repr

/-- `ProtoPackageSpec` from `crates/protogen-spec/src/lib.rs`. -/
structure ProtoPackageSpec where
  name : String
  extern_paths : List ExternPath
deriving DecidableEq, Repr

/-- A `PathBuf`: an absolute flag and the path components. -/
structure CliPath where
  absolute : Bool
  comps : List String
deriving DecidableEq, Repr

def CliPath.join (p : CliPath) (c : String) : CliPath :=
  ⟨p.absolute, p.comps ++ [c]⟩

def CliPath.is_relative (p : CliPath) : Bool := !p.absolute

def CliPath.file_name (p : CliPath) : Option String := p.comps.getLast?

/-- `ProtoSrc` from `crates/protogen-spec/src/lib.rs` (file names as
strings, as the walker's filter compares them). -/
structure ProtoSrc where
  dir : String
  files : List String
deriving DecidableEq, Repr

/-- `RustPackage` from `crates/protogen-spec/src/lib.rs`. -/
structure RustPackage where
  name : String
  version : String
  path : CliPath
  proto_package_name : String
  compile_well_known_protos : Bool
  protos : List ProtoSrc
  protogen_dependencies : List String
deriving DecidableEq, Repr

/-- `ProtogenSpec` from `crates/protogen-spec/src/lib.rs`. -/
structure ProtogenSpec where
  rust : List RustPackage
deriving DecidableEq, Repr

/-- `EnumDescriptorProto` (prost_types): only the name matters to the walker. -/
structure EnumDescriptorProto where
  name : String
deriving DecidableEq, Repr

/-- `DescriptorProto` (prost_types): a message with nested messages and
nested enums, to arbitrary depth. -/
inductive DescriptorProto where
  | mk (name : String) (nested_type : List DescriptorProto)
       (enum_type : List EnumDescriptorProto)

def DescriptorProto.name : DescriptorProto → String
  | .mk n _ _ => n

def DescriptorProto.nested_type : DescriptorProto → List DescriptorProto
  | .mk _ ns _ => ns

def DescriptorProto.enum_type : DescriptorProto → List EnumDescriptorProto
  | .mk _ _ es => es

/-- `FileDescriptorProto` (prost_types): one compiled `.proto` file. -/
structure FileDescriptorProto where
  name : String
  package : String
  message_type : List DescriptorProto
  enum_type : List EnumDescriptorProto

/-- `FileDescriptorSet` (prost_types): the compiler frontend's output. -/
structure FileDescriptorSet where
  file : List FileDescriptorProto

/-! ## Lower-camel-case conversion

Model of the external `heck` crate's `to_lower_camel_case` (an external
dependency of `prost-serde-build`, used at lines 147, 178 and 189 of
`crates/prost-serde-build/src/lib.rs`), restricted to the character
classification Lean's `Char.isLower`/`Char.isUpper`/`Char.isAlphanum`
provide. Words are split on non-alphanumeric characters; inside a word,
a boundary falls between a lowercase run and a following uppercase
character, and before the final uppercase of an uppercase run that is
followed by a lowercase character. The first word is lowercased, every
later word is capitalized (first char uppercase, rest lowercase). -/

inductive WordMode where
  | boundary
  | lowercase
  | uppercase
deriving DecidableEq

/-- Split one alphanumeric word into camel segments, mirroring the
state machine of heck's `transform`. `acc` holds the current segment
reversed. -/
def segmentWord : WordMode → List Char → List Char → List (List Char)
  | _, acc, [] => if acc.isEmpty then [] else [acc.reverse]
  | mode, acc, c :: rest =>
    match rest with
    | [] => [(c :: acc).reverse]
    | next :: _ =>
      let next_mode : WordMode :=
        if c.isLower then .lowercase
        else if c.isUpper then .uppercase
        else mode
      if next_mode == .lowercase && next.isUpper then
        (c :: acc).reverse :: segmentWord .boundary [] rest
      else if mode == .uppercase && c.isUpper && next.isLower then
        acc.reverse :: segmentWord .boundary [c] rest
      else
        segmentWord next_mode (c :: acc) rest

/-- Split a character list on non-alphanumeric characters. -/
def splitWords (cs : List Char) : List (List Char) :=
  (cs.splitOnP (fun c => !c.isAlphanum)).filter (fun w => !w.isEmpty)

def lowerAll (cs : List Char) : List Char := cs.map Char.toLower

def capitalizeSeg : List Char → List Char
  | [] => []
  | c :: rest => c.toUpper :: rest.map Char.toLower

/-- heck's `to_lower_camel_case` on a string (ASCII-faithful model). -/
def toLowerCamelCase (s : String) : String :=
  let segs := (splitWords s.data).flatMap (segmentWord .boundary [])
  match segs with
  | [] => ""
  | first :: rest =>
    ⟨lowerAll first ++ (rest.flatMap capitalizeSeg)⟩

example : toLowerCamelCase "Circle" = "circle" := by decide
example : toLowerCamelCase "geo" = "geo" := by decide
example : toLowerCamelCase "ContainerConfig" = "containerConfig" := by decide
example : toLowerCamelCase "my_pkg" = "myPkg" := by decide

/-! ## The descriptor walker

Embedding of `build` in `crates/prost-serde-build/src/lib.rs`, lines
137–212: the file filter, the worklist seeding, and the breadth-first
walk that emits one `ExternPath` per declared message/enum. -/

/-- `ProtoDef` from `crates/prost-serde-build/src/lib.rs`. -/
inductive ProtoDef where
  | message (d : DescriptorProto)
  | enum (e : EnumDescriptorProto)

/-- `ProtoType` from `crates/prost-serde-build/src/lib.rs` (the field
`def` is a Lean keyword, rendered `def_`). -/
structure ProtoType where
  proto_path : String
  rust_path : String
  def_ : ProtoDef

/-- Structural size of a message descriptor (counts every declared
message and enum in its subtree, itself included). -/
def DescriptorProto.size : DescriptorProto → Nat
  | .mk _ ns es =>
    1 + es.length + (ns.attach.map (fun c => DescriptorProto.size c.1)).sum
termination_by d => sizeOf d
decreasing_by
  simp only [DescriptorProto.mk.sizeOf_spec]
  have := List.sizeOf_lt_of_mem c.2
  omega

theorem DescriptorProto.size_mk (n : String) (ns : List DescriptorProto)
    (es : List EnumDescriptorProto) :
    (DescriptorProto.mk n ns es).size =
      1 + es.length + (ns.map DescriptorProto.size).sum := by
  rw [DescriptorProto.size]
  simp [List.attach_map_val]

/-- Termination measure for the worklist: size of a queue entry's payload. -/
def defMeasure : ProtoDef → Nat
  | .message d => d.size
  | .enum _ => 1

/-- Termination measure for the whole worklist. -/
def queueMeasure (q : List ProtoType) : Nat :=
  (q.map (fun t => defMeasure t.def_)).sum

/-- The entries `build` pushes onto the worklist when dequeuing a message
(lines 172–193): every nested message and nested enum, with the proto
path extended by the parent's name and the rust path extended by the
parent's name in lower camel case. -/
def childEntries (pp rp : String) (d : DescriptorProto) : List ProtoType :=
  (d.nested_type.map fun m =>
    { proto_path := pp ++ "." ++ d.name
      rust_path := rp ++ "::" ++ toLowerCamelCase d.name
      def_ := .message m })
  ++ (d.enum_type.map fun e =>
    { proto_path := pp ++ "." ++ d.name
      rust_path := rp ++ "::" ++ toLowerCamelCase d.name
      def_ := .enum e })

theorem sum_map_one (es : List EnumDescriptorProto) :
    ((es.map fun _ => (1 : Nat)).sum) = es.length := by
  induction es with
  | nil => simp
  | cons a l ih => simp [ih, Nat.add_comm]

theorem childEntries_measure_lt (pp rp : String) (d : DescriptorProto) :
    queueMeasure (childEntries pp rp d) < defMeasure (ProtoDef.message d) := by
  obtain ⟨n, ns, es⟩ := d
  simp only [queueMeasure, childEntries, List.map_append, List.sum_append,
    List.map_map, defMeasure, DescriptorProto.size_mk, DescriptorProto.name,
    DescriptorProto.nested_type, DescriptorProto.enum_type, Function.comp_def,
    sum_map_one]
  rw [show (List.map (fun x => DescriptorProto.size x) ns)
        = List.map DescriptorProto.size ns from rfl]
  omega

/-- The worklist loop of `build` (lines 169–207): pop the front entry,
emit its `ExternPath`, and for a message push its nested types at the
back. The emitted list is in dequeue (breadth-first) order, matching
the order `extern_paths.push` produces. -/
def processQueue : List ProtoType → List ExternPath
  | [] => []
  | ⟨pp, rp, ProtoDef.message d⟩ :: rest =>
    { proto_path := pp ++ "." ++ d.name
      rust_path := rp ++ "::" ++ d.name }
      :: processQueue (rest ++ childEntries pp rp d)
  | ⟨pp, rp, ProtoDef.enum e⟩ :: rest =>
    { proto_path := pp ++ "." ++ e.name
      rust_path := rp ++ "::" ++ e.name }
      :: processQueue rest
termination_by q => queueMeasure q
decreasing_by
  · have hlt := childEntries_measure_lt pp rp d
    simp only [queueMeasure, List.map_cons, List.sum_cons, List.map_append,
      List.sum_append, defMeasure] at *
    omega
  · simp only [queueMeasure, List.map_cons, List.sum_cons, defMeasure]
    omega

/-- The file filter of `build` (lines 137–145): a descriptor file is
retained iff its name is among the package's declared proto files and
its protobuf package equals the package's declared proto package. -/
def retainFilter (rust_package : RustPackage) (f : FileDescriptorProto) : Bool :=
  ((rust_package.protos.flatMap (fun x => x.files)).contains f.name)
    && (rust_package.proto_package_name == f.package)

/-- The root rust path of `build` (line 147):
`format!("{}::prost_serde", rust_package.name.to_lower_camel_case())`. -/
def rootRustPath (rust_package : RustPackage) : String :=
  toLowerCamelCase rust_package.name ++ "::prost_serde"

/-- The worklist seeding of `build` (lines 149–165): every top-level
message then every top-level enum of each retained file, with proto
path prefix `"." ++ file.package` and rust path prefix the root rust
path. -/
def seedTypes (root_rust_path : String) (files : List FileDescriptorProto) :
    List ProtoType :=
  files.flatMap fun file =>
    (file.message_type.map fun msg =>
      { proto_path := "." ++ file.package
        rust_path := root_rust_path
        def_ := ProtoDef.message msg })
    ++ (file.enum_type.map fun e =>
      { proto_path := "." ++ file.package
        rust_path := root_rust_path
        def_ := ProtoDef.enum e })

/-- The walker + spec assembly of `build` (lines 137–212): filter the
descriptor set, seed the worklist, run the breadth-first walk, and pack
the result into a `ProtoPackageSpec` named after the requested package. -/
def buildSpec (rust_package : RustPackage) (package_name : String)
    (descriptor : FileDescriptorSet) : ProtoPackageSpec :=
  { name := package_name
    extern_paths :=
      processQueue (seedTypes (rootRustPath rust_package)
        (descriptor.file.filter (retainFilter rust_package))) }

/-! ## Filesystem effects of the spec emitter

`build` (lines 214–228) persists the spec with
`serde_json::to_writer_pretty(BufWriter::new(File::create(&proto_package_spec_file) ...), ...)`:
a direct `create` of the final path followed by a write of the
serialized spec. There is no temporary file and no rename. -/

/-- Filesystem operations the emitter can perform; a `write` carries the
spec value being serialized. -/
inductive FsOp where
  | create (path : String)
  | write (path : String) (spec : ProtoPackageSpec)
  | rename (src dst : String)
deriving DecidableEq, Repr

/-- The exact operation trace of the spec emitter in `build`
(lines 214–228): `File::create` on the final path, then the serialized
spec is written to that same path. -/
def emitProtoPackageSpec (spec_file : String) (spec : ProtoPackageSpec) :
    List FsOp :=
  [FsOp.create spec_file, FsOp.write spec_file spec]

/-- Does any operation in the trace rename something into `final`? -/
def renamesInto (ops : List FsOp) (final : String) : Bool :=
  ops.any fun op =>
    match op with
    | .rename _ dst => dst == final
    | _ => false

/-- A trace persists `final` atomically when the final path is only ever
produced by a rename: no `create` or `write` targets it directly. -/
def atomicPersist (ops : List FsOp) (final : String) : Bool :=
  (renamesInto ops final)
    && ops.all fun op =>
      match op with
      | .create p => p != final
      | .write p _ => p != final
      | .rename _ _ => true

/-- Relative path of the emitted spec under the rust output directory
(lines 57–71 of `build`). -/
def protoPackageSpecRelPath : String :=
  "appbiotic_api_prost_serde_build/_proto_package_spec.json"

/-- `build` from `crates/prost-serde-build/src/lib.rs`, from the point
the compiled descriptor set is available: look up the rust package in
the protogen spec (an error if absent, line 75–81), then filter, walk,
and emit. Returns the spec together with the emitter's filesystem
trace. -/
def build (protogen_spec : ProtogenSpec) (package_name : String)
    (descriptor : FileDescriptorSet) :
    Except String (ProtoPackageSpec × List FsOp) :=
  match protogen_spec.rust.find? (fun x => x.name == package_name) with
  | none =>
    .error ("Failed to find rust package named `" ++ package_name
      ++ "` in protogen_spec")
  | some rust_package =>
    let spec := buildSpec rust_package package_name descriptor
    .ok (spec, emitProtoPackageSpec protoPackageSpecRelPath spec)

/-! ## Spec-side enumeration of fully qualified names

Written from the spec's words (§4.3 Traversal, P2, Glossary "Proto
path"): the fully qualified dotted name of a declared type is the
leading-dot-prefixed file package, then the names of all enclosing
messages, then the type's own name, dot-separated. These definitions
are the spec side of the refinement; the walker above is the code
side. -/

/-- The fully qualified names of a message and of everything nested in
it (messages and enums, arbitrary depth), given the dotted prefix of
its enclosing scope. -/
def messageQualifiedNames (pp : String) : DescriptorProto → List String
  | .mk n ns es =>
    (pp ++ "." ++ n)
      :: ((ns.attach.map
            (fun c => messageQualifiedNames (pp ++ "." ++ n) c.1)).flatten
          ++ es.map (fun e => pp ++ "." ++ n ++ "." ++ e.name))
termination_by d => sizeOf d
decreasing_by
  simp only [DescriptorProto.mk.sizeOf_spec]
  have := List.sizeOf_lt_of_mem c.2
  omega

theorem messageQualifiedNames_mk (pp n : String) (ns : List DescriptorProto)
    (es : List EnumDescriptorProto) :
    messageQualifiedNames pp (.mk n ns es) =
      (pp ++ "." ++ n)
        :: (ns.flatMap (messageQualifiedNames (pp ++ "." ++ n))
            ++ es.map (fun e => pp ++ "." ++ n ++ "." ++ e.name)) := by
  rw [messageQualifiedNames]
  simp [List.flatMap_def, List.attach_map_val]

/-- Fully qualified names contributed by one worklist entry. -/
def defQualifiedNames (pp : String) : ProtoDef → List String
  | .message d => messageQualifiedNames pp d
  | .enum e => [pp ++ "." ++ e.name]

/-- The fully qualified names of every type a descriptor file declares:
its top-level messages with everything nested in them, and its
top-level enums, each rooted at the dot-prefixed file package. -/
def fileQualifiedNames (f : FileDescriptorProto) : List String :=
  f.message_type.flatMap (messageQualifiedNames ("." ++ f.package))
    ++ f.enum_type.map (fun e => "." ++ f.package ++ "." ++ e.name)

theorem flatMap_singleton_fun {α β : Type} (f : α → β) (l : List α) :
    (l.flatMap fun a => [f a]) = l.map f := by
  induction l with
  | nil => rfl
  | cons a l ih => simp [List.flatMap_cons, ih]

theorem childEntries_qualifiedNames (pp rp n : String)
    (ns : List DescriptorProto) (es : List EnumDescriptorProto) :
    (childEntries pp rp (.mk n ns es)).flatMap
        (fun t => defQualifiedNames t.proto_path t.def_)
      = ns.flatMap (messageQualifiedNames (pp ++ "." ++ n))
        ++ es.map (fun e => pp ++ "." ++ n ++ "." ++ e.name) := by
  simp [childEntries, defQualifiedNames, List.flatMap_append, List.flatMap_map,
    DescriptorProto.name, DescriptorProto.nested_type, DescriptorProto.enum_type,
    flatMap_singleton_fun]

/-- Core walker lemma: the proto paths the breadth-first walk emits are
a permutation of the fully qualified names of every type reachable from
the worklist. -/
theorem processQueue_paths_perm (q : List ProtoType) :
    ((processQueue q).map (fun p => p.proto_path)).Perm
      (q.flatMap (fun t => defQualifiedNames t.proto_path t.def_)) := by
  induction q using processQueue.induct with
  | case1 => simp [processQueue]
  | case2 pp rp d rest ih =>
    rw [processQueue]
    simp only [List.map_cons, List.flatMap_cons]
    rw [List.flatMap_append] at ih
    obtain ⟨n, ns, es⟩ := d
    rw [childEntries_qualifiedNames] at ih
    simp only [defQualifiedNames, messageQualifiedNames_mk,
      DescriptorProto.name]
    refine List.Perm.trans (List.Perm.cons _ ih) ?_
    exact List.Perm.cons _ List.perm_append_comm
  | case3 pp rp e rest ih =>
    rw [processQueue]
    simp only [List.map_cons, List.flatMap_cons, defQualifiedNames,
      List.singleton_append]
    exact List.Perm.cons _ ih

theorem seedTypes_qualifiedNames (rrp : String)
    (files : List FileDescriptorProto) :
    (seedTypes rrp files).flatMap
        (fun t => defQualifiedNames t.proto_path t.def_)
      = files.flatMap fileQualifiedNames := by
  induction files with
  | nil => rfl
  | cons f fs ih =>
    simp only [seedTypes, List.flatMap_cons] at *
    rw [List.flatMap_append, List.flatMap_append, List.flatMap_map,
      List.flatMap_map, ih]
    simp [defQualifiedNames, fileQualifiedNames, flatMap_singleton_fun,
      List.append_assoc]

/-- The proto paths `buildSpec` emits, as a bare list of strings. -/
def emittedProtoPaths (rust_package : RustPackage) (package_name : String)
    (descriptor : FileDescriptorSet) : List String :=
  (buildSpec rust_package package_name descriptor).extern_paths.map
    (fun p => p.proto_path)

theorem emittedProtoPaths_perm (rust_package : RustPackage)
    (package_name : String) (descriptor : FileDescriptorSet) :
    (emittedProtoPaths rust_package package_name descriptor).Perm
      ((descriptor.file.filter (retainFilter rust_package)).flatMap
        fileQualifiedNames) := by
  unfold emittedProtoPaths buildSpec
  refine (processQueue_paths_perm _).trans ?_
  rw [seedTypes_qualifiedNames]

/-! ## The extern-path aggregator -/

/-- Modelled from the spec: the Well-Known Type Table. Its definition is
the embedded data file `prost-wkt-extern-paths.json` of
`prost-serde-build`, which is not among the given sources; §2 and the
glossary describe it as the fixed binding set for protobuf's standard
types (timestamps, durations, wrapped scalars, polymorphic containers). -/
def wktExternPaths : List ExternPath :=
  [⟨".google.protobuf.Timestamp", "::prost_wkt_types::Timestamp"⟩,
   ⟨".google.protobuf.Duration", "::prost_wkt_types::Duration"⟩,
   ⟨".google.protobuf.Any", "::prost_wkt_types::Any"⟩,
   ⟨".google.protobuf.Value", "::prost_wkt_types::Value"⟩,
   ⟨".google.protobuf.Struct", "::prost_wkt_types::Struct"⟩,
   ⟨".google.protobuf.Empty", "::prost_wkt_types::Empty"⟩,
   ⟨".google.protobuf.DoubleValue", "::prost_wkt_types::DoubleValue"⟩,
   ⟨".google.protobuf.StringValue", "::prost_wkt_types::StringValue"⟩]

/-- One insertion into the dependency map of `build` (line 83–84):
`HashMap::from_iter` keyed by spec name, a later spec with the same name
replacing an earlier one. -/
def insertByName (m : List (String × ProtoPackageSpec))
    (x : ProtoPackageSpec) : List (String × ProtoPackageSpec) :=
  if m.any (fun kv => kv.1 == x.name) then
    m.map (fun kv => if kv.1 == x.name then (kv.1, x) else kv)
  else m ++ [(x.name, x)]

/-- The dependency map of `build` (lines 83–84), as an association list
keyed by package name. -/
def dependenciesByName (deps : List ProtoPackageSpec) :
    List (String × ProtoPackageSpec) :=
  deps.foldl insertByName []

/-- The rewrite set of `build` (lines 86–91): a `HashSet` of every
mapped dependency's extern paths chained with the Well-Known Type
Table. As in the source, the result is a set. -/
def aggregatedExternPaths (deps : List ProtoPackageSpec) :
    Finset ExternPath :=
  ((dependenciesByName deps).flatMap (fun kv => kv.2.extern_paths)
    ++ wktExternPaths).toFinset

/-! ## The dependency-loading pipeline -/

/-- Errors of the build pipeline named by the spec (§7). -/
inductive BuildError where
  | MissingDependencySpec (package : String)
  | CompilationError (message : String)
deriving DecidableEq, Repr

/-- Modelled from the spec: loading the already-built spec of every
declared dependency (§4.2). This step lives in the generated build
script, which is not among the given sources; per the spec, a declared
dependency whose spec is not available fails with
`MissingDependencySpec`. -/
def loadDependencySpecs (declared : List String)
    (available : String → Option ProtoPackageSpec) :
    Except BuildError (List ProtoPackageSpec) :=
  match declared with
  | [] => .ok []
  | d :: rest =>
    match available d with
    | none => .error (.MissingDependencySpec d)
    | some s =>
      match loadDependencySpecs rest available with
      | .error e => .error e
      | .ok specs => .ok (s :: specs)

/-- Modelled from the spec (§5): the single-package pipeline
load dependency specs → aggregate → invoke external compiler → walk →
emit, with the compiler frontend an opaque parameter. The walk/emit
stage is the `buildSpec` embedding of the source. -/
def buildPipeline (rust_package : RustPackage)
    (available : String → Option ProtoPackageSpec)
    (compile : Finset ExternPath → Except BuildError FileDescriptorSet) :
    Except BuildError ProtoPackageSpec :=
  match loadDependencySpecs rust_package.protogen_dependencies available with
  | .error e => .error e
  | .ok deps =>
    match compile (aggregatedExternPaths deps) with
    | .error e => .error e
    | .ok descriptor =>
      .ok (buildSpec rust_package rust_package.name descriptor)

/-! ## Order on emitted extern paths -/

/-- Lexicographic strict order on character lists by code point; on
UTF-8 data this coincides with Rust's byte-lexicographic `Ord` for
`String`. -/
def charListLt : List Char → List Char → Bool
  | [], [] => false
  | [], _ :: _ => true
  | _ :: _, [] => false
  | a :: as, b :: bs =>
    if a.toNat < b.toNat then true
    else if b.toNat < a.toNat then false
    else charListLt as bs

def strLt (a b : String) : Bool := charListLt a.data b.data

def strLe (a b : String) : Bool := (a == b) || strLt a b

/-- The derived Rust `Ord` on `ExternPath` (struct field order):
lexicographic by `(proto_path, rust_path)`. -/
def ExternPath.le (a b : ExternPath) : Bool :=
  if a.proto_path == b.proto_path then strLe a.rust_path b.rust_path
  else strLt a.proto_path b.proto_path

/-- Is a list of extern paths sorted ascending by
`(proto_path, rust_path)`? -/
def sortedByProtoThenRust : List ExternPath → Bool
  | [] => true
  | [_] => true
  | a :: b :: rest => ExternPath.le a b && sortedByProtoThenRust (b :: rest)

/-! ## The CLI package builder

Embedding of `build_package` in `crates/rust-build/src/main.rs`
(lines 111–278). Paths are modelled as an absolute-flag plus a
component list; template and manifest contents are compile-time data of
the binary (not among the given sources) and are carried symbolically
in the operation payloads. -/

/-- `PackageCommand` from `crates/rust-build/src/main.rs` (lines 29–48),
including the `dry_run` flag. -/
structure PackageCommand where
  protogen_path : CliPath
  protofetch_path : CliPath
  package : String
  dry_run : Bool
deriving DecidableEq, Repr

/-- Observable actions of `build_package`: directory creation, the three
kinds of file output it produces, and writes to standard out. -/
inductive CliOp where
  | create_dir_all (path : CliPath)
  | writeManifest (path : CliPath) (package_name package_version : String)
  | writePackageSpec (path : CliPath) (spec : RustPackage)
  | renderTemplate (template : String) (rel_protogen_path : Option CliPath)
      (path : CliPath)
  | stdout (text : String)
deriving DecidableEq, Repr

def CliOp.isStdout : CliOp → Bool
  | .stdout _ => true
  | _ => false

/-- `build_package` from `crates/rust-build/src/main.rs`
(lines 111–278), given the parsed protogen spec: find the package,
require its path to be relative, then create the source directory and
write the Cargo manifest, the package spec JSON, and the three rendered
templates. The `dry_run` field of the command is never read by the
source, and correspondingly never occurs in this definition's body. -/
def build_package (protogen : ProtogenSpec) (package_cmd : PackageCommand) :
    Except String (List CliOp) :=
  match protogen.rust.find? (fun x => x.name == package_cmd.package) with
  | none => .error ("Failed to find package `" ++ package_cmd.package
      ++ "` in protogen file")
  | some package_spec =>
    if !package_spec.path.is_relative then
      .error ("Package spec path for `" ++ package_spec.name
        ++ "` was not relative")
    else
      match package_cmd.protogen_path.file_name with
      | none => .error "Expected file_name from protogen_path"
      | some protogen_file_name =>
        .ok
          [CliOp.create_dir_all (package_spec.path.join "src"),
           CliOp.create_dir_all package_spec.path,
           CliOp.writeManifest (package_spec.path.join "Cargo.toml")
             package_spec.name package_spec.version,
           CliOp.writePackageSpec
             ((package_spec.path.join "src").join "package_spec.json")
             package_spec,
           CliOp.renderTemplate "build.rs"
             (some ⟨false, package_spec.path.comps.map (fun _ => "..")
               ++ [protogen_file_name]⟩)
             (package_spec.path.join "build.rs"),
           CliOp.renderTemplate "lib.rs" none
             ((package_spec.path.join "src").join "lib.rs"),
           CliOp.renderTemplate "prost_serde.rs" none
             ((package_spec.path.join "src").join "prost_serde.rs")]

/-! ## The §8 scenario: package `geo` -/

/-- §8 scenario package: `geo`, proto package `geo.v1`, one proto source
file `shapes.proto`. -/
def geoPackage : RustPackage :=
  { name := "geo"
    version := "0.1.0"
    path := ⟨false, ["crates", "geo"]⟩
    proto_package_name := "geo.v1"
    compile_well_known_protos := false
    protos := [⟨"proto", ["shapes.proto"]⟩]
    protogen_dependencies := [] }

/-- §8 scenario descriptor set: `shapes.proto` in proto package `geo.v1`
declaring message `Circle` with nested message `Point`, and top-level
enum `Unit`. -/
def geoDescriptor : FileDescriptorSet :=
  ⟨[⟨"shapes.proto", "geo.v1",
     [DescriptorProto.mk "Circle" [DescriptorProto.mk "Point" [] []] []],
     [⟨"Unit"⟩]⟩]⟩

/-- The spec artifact the code actually emits for the §8 scenario:
second components named `rust_path`, root prefix
`toLowerCamelCase "geo" ++ "::prost_serde"`, nested module segment
`toLowerCamelCase "Circle"`, entries in breadth-first emission order. -/
def geoActualSpec : ProtoPackageSpec :=
  { name := "geo"
    extern_paths :=
      [⟨".geo.v1.Circle", "geo::prost_serde::Circle"⟩,
       ⟨".geo.v1.Unit", "geo::prost_serde::Unit"⟩,
       ⟨".geo.v1.Circle.Point", "geo::prost_serde::circle::Point"⟩] }

theorem geoSpec_eval : buildSpec geoPackage "geo" geoDescriptor = geoActualSpec := by
  have h1 : toLowerCamelCase "geo" = "geo" := by decide
  have h2 : toLowerCamelCase "Circle" = "circle" := by decide
  simp [geoActualSpec, buildSpec, geoPackage, geoDescriptor, processQueue,
    seedTypes, retainFilter, rootRustPath, childEntries, h1, h2,
    DescriptorProto.name, DescriptorProto.nested_type,
    DescriptorProto.enum_type]

/-! ## Claim theorems -/

/-- **C1**: for every descriptor set that passes the file filter, the
walker emits exactly one `ExternPath` per declared message and per
declared enum (nested to arbitrary depth): the emitted `proto_path`s are
a permutation of the enumeration listing, once per declared type, its
fully qualified dotted name — leading dot, the file's protobuf package,
the enclosing message names, and the type's own name, dot-separated. -/
theorem C1_walker_completeness (rust_package : RustPackage)
    (package_name : String) (descriptor : FileDescriptorSet) :
    ((buildSpec rust_package package_name descriptor).extern_paths.map
        (fun p => p.proto_path)).Perm
      ((descriptor.file.filter (retainFilter rust_package)).flatMap
        fileQualifiedNames) := by
  have h := emittedProtoPaths_perm rust_package package_name descriptor
  simpa [emittedProtoPaths] using h

/-- **C2** counterexample: for the §8 `geo` scenario the emitted spec is
not the claimed artifact (whose entries would be named `target_path`
with root prefix `geo` and nested paths extending the parent's full
target path). -/
theorem C2_counterexample :
    buildSpec geoPackage "geo" geoDescriptor ≠
      { name := "geo"
        extern_paths :=
          [⟨".geo.v1.Circle", "geo::Circle"⟩,
           ⟨".geo.v1.Circle.Point", "geo::Circle::Point"⟩,
           ⟨".geo.v1.Unit", "geo::Unit"⟩] } := by
  rw [geoSpec_eval]
  decide

/-- **C2** as amended: for the §8 `geo` scenario the emitted spec is
`{name := "geo", extern_paths := [.geo.v1.Circle ↦ geo::prost_serde::Circle,
.geo.v1.Unit ↦ geo::prost_serde::Unit,
.geo.v1.Circle.Point ↦ geo::prost_serde::circle::Point]}`: the second
component is named `rust_path`, the root prefix is the lower-camel-cased
package name followed by `::prost_serde`, a nested type's path extends
the parent's prefix by `::` and the lower-camel-cased parent name, and
entries appear in breadth-first emission order. -/
theorem C2_scenario_actual_spec :
    buildSpec geoPackage "geo" geoDescriptor = geoActualSpec :=
  geoSpec_eval

/-- **C5** counterexample: the spec emitted for the §8 `geo` scenario is
not sorted by `(proto_path, rust_path)` — `.geo.v1.Unit` precedes
`.geo.v1.Circle.Point` in the serialized list. -/
theorem C5_counterexample :
    sortedByProtoThenRust
      ((buildSpec geoPackage "geo" geoDescriptor).extern_paths) = false := by
  rw [geoSpec_eval]
  decide

/-- **C5** as amended: the serialized `extern_paths` list is the walker's
breadth-first emission order, with no sorting applied: for the §8 `geo`
scenario the emitted proto paths are `[.geo.v1.Circle, .geo.v1.Unit,
.geo.v1.Circle.Point]`, a list not sorted by `(proto_path, rust_path)`. -/
theorem C5_emission_order :
    ((buildSpec geoPackage "geo" geoDescriptor).extern_paths.map
        (fun p => p.proto_path)
      = [".geo.v1.Circle", ".geo.v1.Unit", ".geo.v1.Circle.Point"]) ∧
    sortedByProtoThenRust
      ((buildSpec geoPackage "geo" geoDescriptor).extern_paths) = false := by
  rw [geoSpec_eval]
  constructor
  · decide
  · decide

/-- **C9**: under the compiler frontend's guarantee that the fully
qualified names declared in the retained files are pairwise distinct
(protoc rejects duplicate type names), no two entries of the emitted
spec share a `proto_path`. -/
theorem C9_unique_proto_paths (rust_package : RustPackage)
    (package_name : String) (descriptor : FileDescriptorSet)
    (h : ((descriptor.file.filter (retainFilter rust_package)).flatMap
      fileQualifiedNames).Nodup) :
    ((buildSpec rust_package package_name descriptor).extern_paths.map
      (fun p => p.proto_path)).Nodup := by
  have hperm := emittedProtoPaths_perm rust_package package_name descriptor
  have := hperm.symm.nodup h
  simpa [emittedProtoPaths] using this

theorem geo_fileQualifiedNames_eval :
    (geoDescriptor.file.filter (retainFilter geoPackage)).flatMap
        fileQualifiedNames
      = [".geo.v1.Circle", ".geo.v1.Circle.Point", ".geo.v1.Unit"] := by
  simp [geoDescriptor, geoPackage, retainFilter, fileQualifiedNames,
    messageQualifiedNames_mk]

/-- **C9** witness: the hypothesis and conclusion at the §8 `geo`
scenario. -/
theorem C9_witness :
    ((geoDescriptor.file.filter (retainFilter geoPackage)).flatMap
      fileQualifiedNames).Nodup ∧
    ((buildSpec geoPackage "geo" geoDescriptor).extern_paths.map
      (fun p => p.proto_path)).Nodup := by
  have h : ((geoDescriptor.file.filter (retainFilter geoPackage)).flatMap
      fileQualifiedNames).Nodup := by
    rw [geo_fileQualifiedNames_eval]
    decide
  exact ⟨h, C9_unique_proto_paths geoPackage "geo" geoDescriptor h⟩

/-- **C7**: a descriptor file is retained iff its name is among the
package's declared proto source files and its protobuf package equals
the declared proto package; and every emitted `ExternPath` has a
`proto_path` declared by some retained file. -/
theorem C7_filter_iff_and_isolation (rust_package : RustPackage)
    (package_name : String) (descriptor : FileDescriptorSet) :
    (∀ f, f ∈ descriptor.file.filter (retainFilter rust_package) ↔
      f ∈ descriptor.file ∧
        (rust_package.protos.flatMap (fun x => x.files)).contains f.name = true ∧
        rust_package.proto_package_name = f.package) ∧
    (∀ p ∈ (buildSpec rust_package package_name descriptor).extern_paths,
      ∃ f, f ∈ descriptor.file ∧ retainFilter rust_package f = true ∧
        p.proto_path ∈ fileQualifiedNames f) := by
  constructor
  · intro f
    rw [List.mem_filter]
    unfold retainFilter
    simp [Bool.and_eq_true, beq_iff_eq, and_assoc]
  · intro p hp
    have hperm := emittedProtoPaths_perm rust_package package_name descriptor
    have hmem : p.proto_path ∈
        (descriptor.file.filter (retainFilter rust_package)).flatMap
          fileQualifiedNames := by
      refine hperm.mem_iff.mp ?_
      simp only [emittedProtoPaths]
      exact List.mem_map_of_mem _ hp
    obtain ⟨f, hf, hpath⟩ := List.mem_flatMap.mp hmem
    rw [List.mem_filter] at hf
    exact ⟨f, hf.1, hf.2, hpath⟩

/-- **C7** witness: at the §8 `geo` scenario, `shapes.proto` is retained
(both filter conditions hold there), and the `.geo.v1.Circle` entry
traces to a retained file. -/
theorem C7_witness :
    (⟨"shapes.proto", "geo.v1",
       [DescriptorProto.mk "Circle" [DescriptorProto.mk "Point" [] []] []],
       [⟨"Unit"⟩]⟩ : FileDescriptorProto) ∈
      geoDescriptor.file.filter (retainFilter geoPackage) ∧
    (∃ f, f ∈ geoDescriptor.file ∧ retainFilter geoPackage f = true ∧
      ExternPath.proto_path ⟨".geo.v1.Circle", "geo::prost_serde::Circle"⟩ ∈
        fileQualifiedNames f) := by
  constructor
  · refine ((C7_filter_iff_and_isolation geoPackage "geo" geoDescriptor).1 _).mpr
      ⟨?_, ?_, ?_⟩
    · simp [geoDescriptor]
    · decide
    · rfl
  · refine (C7_filter_iff_and_isolation geoPackage "geo" geoDescriptor).2
      ⟨".geo.v1.Circle", "geo::prost_serde::Circle"⟩ ?_
    rw [geoSpec_eval]
    simp [geoActualSpec]

/-- A package whose declared proto source and proto package match none
of the compiled descriptor files: the filter retains zero files. -/
def mismatchPackage : RustPackage :=
  { name := "mismatched"
    version := "0.1.0"
    path := ⟨false, ["crates", "mismatched"]⟩
    proto_package_name := "mismatched.v1"
    compile_well_known_protos := false
    protos := [⟨"proto", ["mismatched.proto"]⟩]
    protogen_dependencies := [] }

/-- A descriptor set none of whose files survives `mismatchPackage`'s
filter. -/
def mismatchDescriptor : FileDescriptorSet :=
  ⟨[⟨"other.proto", "other.v1", [DescriptorProto.mk "M" [] []], []⟩]⟩

/-- **C8** counterexample: `mismatchPackage` declares one proto source
file, the filter retains zero descriptor files, yet `build` does not
fail — it emits a spec with empty `extern_paths` (no
`EmptyPackageOutput` error exists in the code). -/
theorem C8_counterexample :
    (mismatchPackage.protos.flatMap (fun x => x.files) ≠ []) ∧
    (mismatchDescriptor.file.filter (retainFilter mismatchPackage) = []) ∧
    build ⟨[mismatchPackage]⟩ "mismatched" mismatchDescriptor =
      .ok (⟨"mismatched", []⟩,
        emitProtoPackageSpec protoPackageSpecRelPath ⟨"mismatched", []⟩) := by
  refine ⟨by decide, by rfl, ?_⟩
  simp [build, mismatchPackage, mismatchDescriptor, buildSpec, seedTypes,
    retainFilter, processQueue, emitProtoPackageSpec]

/-- **C8** as amended: for every package that declares at least one
proto source file, if the filter retains zero descriptor files the
build does not fail; it emits a spec with the package's name and empty
`extern_paths`. -/
theorem C8_empty_filter_emits_empty_spec (rust_package : RustPackage)
    (package_name : String) (descriptor : FileDescriptorSet)
    (_hdecl : rust_package.protos.flatMap (fun x => x.files) ≠ [])
    (hempty : descriptor.file.filter (retainFilter rust_package) = []) :
    buildSpec rust_package package_name descriptor =
      { name := package_name, extern_paths := [] } := by
  unfold buildSpec
  rw [hempty]
  simp [seedTypes, processQueue]

/-- **C8** witness: the amended theorem applied at the mismatch
scenario. -/
theorem C8_witness :
    (mismatchPackage.protos.flatMap (fun x => x.files) ≠ []) ∧
    (mismatchDescriptor.file.filter (retainFilter mismatchPackage) = []) ∧
    buildSpec mismatchPackage "mismatched" mismatchDescriptor =
      { name := "mismatched", extern_paths := [] } :=
  ⟨by decide, by rfl,
    C8_empty_filter_emits_empty_spec mismatchPackage "mismatched"
      mismatchDescriptor (by decide) (by rfl)⟩

/-- **C6** counterexample: the filesystem trace of the §8 `geo` build's
spec emission is not an atomic temp-write-then-rename persist — the
final path is created and written directly, and nothing is renamed into
it. -/
theorem C6_counterexample :
    build ⟨[geoPackage]⟩ "geo" geoDescriptor =
      .ok (geoActualSpec,
        [FsOp.create protoPackageSpecRelPath,
         FsOp.write protoPackageSpecRelPath geoActualSpec]) ∧
    atomicPersist
      [FsOp.create protoPackageSpecRelPath,
       FsOp.write protoPackageSpecRelPath geoActualSpec]
      protoPackageSpecRelPath = false := by
  constructor
  · have h := geoSpec_eval
    simp only [build, geoPackage, List.find?]
    simp only [geoPackage] at h
    simp [h, emitProtoPackageSpec]
  · decide

/-- **C6** as amended: the spec is not persisted via a temporary
location: for every target path and spec value the emitter's trace
renames nothing into the target and creates the final path directly, so
a failure between the create and the completed write can leave a
partial spec artifact behind. -/
theorem C6_direct_write (spec_file : String) (spec : ProtoPackageSpec) :
    renamesInto (emitProtoPackageSpec spec_file spec) spec_file = false ∧
    (emitProtoPackageSpec spec_file spec).any
      (fun op => match op with
        | .create p => p == spec_file
        | _ => false) = true := by
  constructor
  · simp [renamesInto, emitProtoPackageSpec]
  · simp [emitProtoPackageSpec]

theorem foldl_insertByName (deps : List ProtoPackageSpec) :
    ∀ acc : List (String × ProtoPackageSpec),
      (deps.map (fun d => d.name)).Nodup →
      (∀ kv ∈ acc, ∀ d ∈ deps, kv.1 ≠ d.name) →
      deps.foldl insertByName acc = acc ++ deps.map (fun d => (d.name, d)) := by
  induction deps with
  | nil => intro acc _ _; simp
  | cons d ds ih =>
    intro acc hnodup hdisj
    have hnotin : acc.any (fun kv => kv.1 == d.name) = false := by
      rw [List.any_eq_false]
      intro kv hkv
      simpa using hdisj kv hkv d (List.mem_cons_self d ds)
    have hstep : insertByName acc d = acc ++ [(d.name, d)] := by
      unfold insertByName
      rw [hnotin]
      simp
    rw [List.foldl_cons, hstep]
    rw [List.map_cons, List.nodup_cons] at hnodup
    rw [ih (acc ++ [(d.name, d)]) hnodup.2 ?_]
    · simp
    · intro kv hkv d' hd'
      rcases List.mem_append.mp hkv with h | h
      · exact hdisj kv h d' (List.mem_cons_of_mem d hd')
      · have : kv = (d.name, d) := by simpa using h
        subst this
        intro hcontra
        apply hnodup.1
        have : d'.name ∈ List.map (fun x => x.name) ds :=
          List.mem_map_of_mem (fun x => x.name) hd'
        simpa [← hcontra] using this

theorem dependenciesByName_of_nodup (deps : List ProtoPackageSpec)
    (h : (deps.map (fun d => d.name)).Nodup) :
    dependenciesByName deps = deps.map (fun d => (d.name, d)) := by
  unfold dependenciesByName
  rw [foldl_insertByName deps [] h (by simp)]
  simp

/-- **C3** counterexample: two supplied dependency specs with the same
name but disjoint proto paths (disjoint from the Well-Known Type Table
too, so the claim's precondition holds); the dependency map keeps only
the later one, so the bound rewrite set is not the union of every
supplied dependency's extern paths. -/
theorem C3_counterexample :
    ((([⟨"a", [⟨".x.X", "a::X"⟩]⟩, ⟨"a", [⟨".y.Y", "a::Y"⟩]⟩] :
        List ProtoPackageSpec).flatMap (fun d => d.extern_paths)
      ++ wktExternPaths).map (fun p => p.proto_path)).Nodup ∧
    aggregatedExternPaths
        [⟨"a", [⟨".x.X", "a::X"⟩]⟩, ⟨"a", [⟨".y.Y", "a::Y"⟩]⟩] ≠
      (([⟨"a", [⟨".x.X", "a::X"⟩]⟩, ⟨"a", [⟨".y.Y", "a::Y"⟩]⟩] :
          List ProtoPackageSpec).flatMap (fun d => d.extern_paths)
        ++ wktExternPaths).toFinset := by
  constructor
  · decide
  · decide

/-- **C3** as amended: provided the supplied dependency specs have
pairwise distinct names (the code keys them by name, a duplicate name
dropping the earlier spec), the rewrite set bound into the compiler
configuration is exactly the union of every dependency's extern paths
and the full Well-Known Type Table; and under the claim's disjointness
precondition no two of its entries share a `proto_path`. The model
computes the set and nothing else — binding has no other side effect. -/
theorem C3_aggregate_union (deps : List ProtoPackageSpec)
    (hnames : (deps.map (fun d => d.name)).Nodup) :
    aggregatedExternPaths deps =
      (deps.flatMap (fun d => d.extern_paths) ++ wktExternPaths).toFinset ∧
    (((deps.flatMap (fun d => d.extern_paths) ++ wktExternPaths).map
        (fun p => p.proto_path)).Nodup →
      ∀ a ∈ aggregatedExternPaths deps, ∀ b ∈ aggregatedExternPaths deps,
        a.proto_path = b.proto_path → a = b) := by
  have hmap : aggregatedExternPaths deps =
      (deps.flatMap (fun d => d.extern_paths) ++ wktExternPaths).toFinset := by
    unfold aggregatedExternPaths
    rw [dependenciesByName_of_nodup deps hnames, List.flatMap_map]
  refine ⟨hmap, ?_⟩
  intro hnodup a ha b hb hab
  rw [hmap, List.mem_toFinset] at ha hb
  exact List.inj_on_of_nodup_map hnodup ha hb hab

/-- **C3** witness: two distinct-named dependencies; the aggregate is
the union with the Well-Known Type Table. -/
theorem C3_witness :
    ((([⟨"a", [⟨".x.X", "a::X"⟩]⟩, ⟨"b", [⟨".y.Y", "b::Y"⟩]⟩] :
        List ProtoPackageSpec).map (fun d => d.name)).Nodup) ∧
    aggregatedExternPaths
        [⟨"a", [⟨".x.X", "a::X"⟩]⟩, ⟨"b", [⟨".y.Y", "b::Y"⟩]⟩] =
      (([⟨"a", [⟨".x.X", "a::X"⟩]⟩, ⟨"b", [⟨".y.Y", "b::Y"⟩]⟩] :
          List ProtoPackageSpec).flatMap (fun d => d.extern_paths)
        ++ wktExternPaths).toFinset :=
  ⟨by decide,
    (C3_aggregate_union
      [⟨"a", [⟨".x.X", "a::X"⟩]⟩, ⟨"b", [⟨".y.Y", "b::Y"⟩]⟩]
      (by decide)).1⟩

theorem loadDependencySpecs_missing (l : List String)
    (available : String → Option ProtoPackageSpec)
    (h : ∃ d ∈ l, available d = none) :
    ∃ d ∈ l, available d = none ∧
      loadDependencySpecs l available =
        .error (BuildError.MissingDependencySpec d) := by
  induction l with
  | nil => simp at h
  | cons x xs ih =>
    cases hx : available x with
    | none =>
      exact ⟨x, List.mem_cons_self x xs, hx, by
        unfold loadDependencySpecs
        rw [hx]⟩
    | some s =>
      have hxs : ∃ d ∈ xs, available d = none := by
        obtain ⟨d, hd, hnone⟩ := h
        rcases List.mem_cons.mp hd with rfl | hmem
        · rw [hx] at hnone; exact absurd hnone (by simp)
        · exact ⟨d, hmem, hnone⟩
      obtain ⟨d, hd, hnone, heq⟩ := ih hxs
      refine ⟨d, List.mem_cons_of_mem x hd, hnone, ?_⟩
      unfold loadDependencySpecs
      rw [hx, heq]

/-- **C4**: when some declared dependency has no already-built spec
available, the pipeline fails with `MissingDependencySpec` for a missing
dependency, and it does so before the compiler frontend is invoked: the
resulting error is the same for every possible compiler behaviour. -/
theorem C4_missing_dependency_fails (rust_package : RustPackage)
    (available : String → Option ProtoPackageSpec)
    (h : ∃ d ∈ rust_package.protogen_dependencies, available d = none) :
    ∃ d ∈ rust_package.protogen_dependencies, available d = none ∧
      ∀ compile : Finset ExternPath → Except BuildError FileDescriptorSet,
        buildPipeline rust_package available compile =
          .error (BuildError.MissingDependencySpec d) := by
  obtain ⟨d, hd, hnone, heq⟩ :=
    loadDependencySpecs_missing rust_package.protogen_dependencies available h
  refine ⟨d, hd, hnone, fun compile => ?_⟩
  unfold buildPipeline
  rw [heq]

/-- §8 scenario package `routes`, depending on `geo`. -/
def routesPackage : RustPackage :=
  { name := "routes"
    version := "0.1.0"
    path := ⟨false, ["crates", "routes"]⟩
    proto_package_name := "routes.v1"
    compile_well_known_protos := false
    protos := [⟨"proto", ["routes.proto"]⟩]
    protogen_dependencies := ["geo"] }

/-- **C4** witness: building `routes` with no `geo` spec available
fails with `MissingDependencySpec "geo"` regardless of the compiler. -/
theorem C4_witness :
    (∃ d ∈ routesPackage.protogen_dependencies,
      (fun _ => (none : Option ProtoPackageSpec)) d = none) ∧
    ∃ d ∈ routesPackage.protogen_dependencies,
      (fun _ => (none : Option ProtoPackageSpec)) d = none ∧
      ∀ compile : Finset ExternPath → Except BuildError FileDescriptorSet,
        buildPipeline routesPackage (fun _ => none) compile =
          .error (BuildError.MissingDependencySpec d) := by
  have h : ∃ d ∈ routesPackage.protogen_dependencies,
      (fun _ => (none : Option ProtoPackageSpec)) d = none :=
    ⟨"geo", by simp [routesPackage], rfl⟩
  exact ⟨h, C4_missing_dependency_fails routesPackage (fun _ => none) h⟩

/-- **C10**: the CLI package-build command's `dry_run` flag has no
effect — `build_package` computes the same result (the same manifest,
package-spec and template writes under the package's path) whether
`dry_run` is true or false — and it never writes to standard out. -/
theorem C10_dry_run_no_effect (protogen : ProtogenSpec)
    (protogen_path protofetch_path : CliPath) (package : String) :
    (build_package protogen
        ⟨protogen_path, protofetch_path, package, true⟩ =
      build_package protogen
        ⟨protogen_path, protofetch_path, package, false⟩) ∧
    (∀ ops, build_package protogen
        ⟨protogen_path, protofetch_path, package, true⟩ = .ok ops →
      ops.all (fun op => !op.isStdout) = true) := by
  constructor
  · rfl
  · intro ops h
    unfold build_package at h
    repeat' split at h
    all_goals first
      | (rw [Except.ok.injEq] at h
         subst h
         simp [CliOp.isStdout])
      | exact absurd h (by simp)

/-- **C10** witness: a concrete invocation of `build_package` on the
`geo` package; the flag makes no difference and the produced operations
contain no write to standard out. -/
theorem C10_witness :
    (build_package ⟨[geoPackage]⟩
        ⟨⟨false, ["protogen.json"]⟩, ⟨false, ["protofetch.toml"]⟩,
          "geo", true⟩ =
      build_package ⟨[geoPackage]⟩
        ⟨⟨false, ["protogen.json"]⟩, ⟨false, ["protofetch.toml"]⟩,
          "geo", false⟩) ∧
    ((build_package ⟨[geoPackage]⟩
        ⟨⟨false, ["protogen.json"]⟩, ⟨false, ["protofetch.toml"]⟩,
          "geo", true⟩).toOption.getD []).all
      (fun op => !op.isStdout) = true := by
  have h := C10_dry_run_no_effect ⟨[geoPackage]⟩
    ⟨false, ["protogen.json"]⟩ ⟨false, ["protofetch.toml"]⟩ "geo"
  refine ⟨h.1, ?_⟩
  have h2 := h.2 ((build_package ⟨[geoPackage]⟩
    ⟨⟨false, ["protogen.json"]⟩, ⟨false, ["protofetch.toml"]⟩,
      "geo", true⟩).toOption.getD []) (by rfl)
  exact h2

end ApiBuild
